import Mathlib

/-!
Verification of the nodebox command-line launcher (nodebox/run/task.py).

The file below is a shallow embedding of the launcher's logic:

* startup option parsing and mode resolution (the `__main__` block),
* the `done` termination rule of `ScriptAppDelegate`,
* the stdin interrupt watcher `catchInterrupts_`,
* the `NodeBoxScript` controller operations `runScript`, `export`,
  `_export`, `exportStatus`, `exportProgress` and `cancel`.

Python dictionaries are embedded as association lists with Python's
replace-or-append assignment semantics, JSON values as the inductive
`JVal`, and console/process effects as explicit result records.
Fallible Python operations (KeyError, TypeError, IndexError,
ZeroDivisionError) are embedded with `Except`.
-/

/-- Execution mode of the launcher, from
`mode = 'headless' if opts['export'] else 'windowed'`. -/
inductive Mode where
  | headless
  | windowed
  deriving DecidableEq

/-- JSON values, as produced by `json.loads` on the startup line. -/
inductive JVal where
  | jnull
  | jbool (b : Bool)
  | jnum (n : Int)
  | jstr (s : String)
  | jarr (elems : List JVal)
  | jobj (fields : List (String × JVal))

/-- Python truthiness (`bool(v)`) of a JSON value, used by the
conditional expression that resolves the mode. -/
def truthy : JVal → Bool
  | .jnull => false
  | .jbool b => b
  | .jnum n => n != 0
  | .jstr s => s != ""
  | .jarr elems => !elems.isEmpty
  | .jobj fields => !fields.isEmpty

/-- A Python dict of options, embedded as an association list
(first match wins on lookup; keys are unique in dicts built by
`json.loads` and by `dinsert`). -/
abbrev Dict := List (String × JVal)

/-- Python dict item access `d[k]`, as an `Option`. -/
def dlookup (k : String) : Dict → Option JVal
  | [] => none
  | (k₀, v₀) :: rest => if k = k₀ then some v₀ else dlookup k rest

/-- Python dict item assignment `d[k] = v`: replaces the value in place
when the key is present, appends otherwise. -/
def dinsert (k : String) (v : JVal) : Dict → Dict
  | [] => [(k, v)]
  | (k₀, v₀) :: rest =>
      if k = k₀ then (k, v) :: rest else (k₀, v₀) :: dinsert k v rest

/-- Python `d.update(o)`: assigns each key/value pair of `o` into `d`
in order, so later values win over the stored ones. -/
def dupdate (d : Dict) : Dict → Dict
  | [] => d
  | (k, v) :: rest => dupdate (dinsert k v d) rest

/-- The single line read from stdin at startup: either a line that
`json.loads` rejects (raising `ValueError`), or a parsed JSON value. -/
inductive StartupInput where
  | malformed
  | parsed (v : JVal)

/-- Outcome of the `__main__` startup block: either the process aborts
before the event loop (printing a diagnostic, exiting with the given
status code), or the application shell and controller are constructed
and the event loop is entered with the resolved mode and options. -/
inductive StartupResult where
  | abort (diagnostic : String) (code : Nat)
  | launch (mode : Mode) (opts : Dict)

/-- The `__main__` startup block.  A `ValueError` from `json.loads` is
caught and handled with `print "bad args"; sys.exit(1)`.  Accessing
`opts['export']` on a non-dict raises `TypeError` and on a dict without
the key raises `KeyError`; both are outside the `except ValueError`
handler, so the interpreter prints a traceback and exits with status 1
without entering the event loop. -/
def startup : StartupInput → StartupResult
  | .malformed => .abort "bad args" 1
  | .parsed (.jobj fields) =>
      match dlookup "export" fields with
      | none => .abort "KeyError: export" 1
      | some v => .launch (if truthy v then .headless else .windowed) fields
  | .parsed _ => .abort "TypeError: value is not a mapping" 1

/-- The mode resolved by startup, if any. -/
def resolvedMode : StartupResult → Option Mode
  | .abort _ _ => none
  | .launch m _ => some m

/-- Whether a startup outcome printed a diagnostic and exited with a
non-zero status before the event loop. -/
def abortsBeforeEventLoop : StartupResult → Bool
  | .abort d c => d != "" && c != 0
  | .launch _ _ => false

/-- Whether a parsed startup JSON value lacks the export field:
true for any non-object (which has no fields at all) and for an object
without the key. -/
def exportFieldAbsent : JVal → Bool
  | .jobj fields => (dlookup "export" fields).isNone
  | _ => true

/-- Console streams. -/
inductive Fd where
  | out
  | err
  deriving DecidableEq

/-- The module constant `ERASER = '\r%s\r' % (' ' * 80)`: an 80-column
carriage-return erase sequence. -/
def ERASER : List Char := '\r' :: (List.replicate 80 ' ' ++ ['\r'])

/-- `NodeBoxScript.echo`: writes the eraser to stderr, then streams each
`(isErr, data)` chunk to stderr or stdout, flushing each write. -/
def echoWrites (output : List (Bool × List Char)) : List (Fd × List Char) :=
  (Fd.err, ERASER) ::
    output.map (fun chunk => (if chunk.fst then Fd.err else Fd.out, chunk.snd))

/-- `ScriptAppDelegate.done`: returns whether `NSApp terminate` is
requested, from `if self.mode=='headless' or quit`. -/
def done (mode : Mode) (quit : Bool) : Bool :=
  match mode with
  | .headless => true
  | .windowed => quit

/-- Observable effect of `NodeBoxScript.exportStatus`. -/
structure StatusEffect where
  writes : List (Fd × List Char)
  terminated : Bool

/-- `NodeBoxScript.exportStatus`: on success echoes the status output;
on failure writes a bare carriage return to stderr, echoes the output,
then calls the delegate's `done()` (with `quit` defaulted to false). -/
def exportStatus (mode : Mode) (ok : Bool) (output : List (Bool × List Char)) :
    StatusEffect :=
  if ok then
    { writes := echoWrites output, terminated := false }
  else
    { writes := (Fd.err, ['\r']) :: echoWrites output
      terminated := done mode false }

/-- Error raised by `exportProgress` when `total` is zero. -/
inductive ProgressErr where
  | divByZero
  deriving DecidableEq

/-- The bar interior `"".join(['#'*pct] + ['.']*(width-pct))`. -/
def progressDots (pct width : Nat) : List Char :=
  (List.replicate pct '#' :: List.replicate (width - pct) ['.']).flatten

/-- `NodeBoxScript.exportProgress`: renders the progress line written to
stderr.  The bar fraction `int(floor(width*written/total))` is computed
(with Python 2 integer floor division) before the `total == written`
special case is examined, so a zero `total` raises `ZeroDivisionError`
unless `cancelled` short-circuits the whole computation. -/
def exportProgress (written total : Nat) (cancelled : Bool) :
    Except ProgressErr (List Char) :=
  if cancelled then
    .ok (ERASER ++ "Cancelling export…".toList)
  else if total = 0 then
    .error .divByZero
  else
    let width := 20
    let pct := width * written / total
    let dots := progressDots pct width
    let msg := '\r' :: ("Generating ".toList ++ (toString total).toList ++
      " frames [".toList ++ dots ++ "]".toList)
    let msg := if total = written then "Finishing export…".toList else msg
    .ok (ERASER ++ msg)

/-- State read by `NodeBoxScript.cancel`: whether `self.vm.session` is
truthy, whether `getattr(self, 'animationTimer', None)` is not `None`,
and whether the controller runs windowed. -/
structure CancelState where
  hasSession : Bool
  hasAnimationTimer : Bool
  windowed : Bool

/-- Observable effect of `NodeBoxScript.cancel`. -/
structure CancelEffect where
  sessionCancelled : Bool
  scriptStopped : Bool
  doneQuit : Option Bool

/-- `NodeBoxScript.cancel`: cancels the session if one exists; then
stops the script when an animation timer is active, otherwise calls
`done(quit=True)` when windowed, otherwise does nothing further. -/
def cancel (s : CancelState) : CancelEffect :=
  { sessionCancelled := s.hasSession
    scriptStopped := s.hasAnimationTimer
    doneQuit :=
      if s.hasAnimationTimer then none
      else if s.windowed then some true else none }

/-- Python `str.strip()` whitespace test (space, tab, LF, CR, VT, FF). -/
def pyWS (c : Char) : Bool :=
  c == ' ' || c == '\t' || c == '\n' || c == '\r' || c == '\x0b' || c == '\x0c'

/-- Python `line.strip()`: drops whitespace from both ends. -/
def pyStrip (s : List Char) : List Char :=
  ((s.dropWhile pyWS).reverse.dropWhile pyWS).reverse

/-- Python substring test `pat in s`. -/
def containsSub (pat : List Char) : List Char → Bool
  | [] => pat.isEmpty
  | c :: rest => pat.isPrefixOf (c :: rest) || containsSub pat rest

/-- The cancellation token looked for by the interrupt watcher. -/
def CANCEL : List Char := "CANCEL".toList

/-- Observable effect of one wake-up of `catchInterrupts_`. -/
structure WatchEffect where
  cancelCalls : Nat
  rearmed : Bool

/-- `ScriptAppDelegate.catchInterrupts_`: polls stdin with a zero
timeout; when readable it reads one line, strips it, and calls
`self.script.cancel()` when the stripped line contains `'CANCEL'`;
in every case it re-arms `waitForDataInBackgroundAndNotify`. -/
def catchInterrupts (stdinReady : Bool) (line : List Char) : WatchEffect :=
  if stdinReady then
    { cancelCalls := if containsSub CANCEL (pyStrip line) then 1 else 0
      rearmed := true }
  else
    { cancelCalls := 0, rearmed := true }

/-- State read by the window-resize step of `NodeBoxScript.runScript`:
whether `hasattr(self.vm.namespace, 'WIDTH')` (resp. `'HEIGHT'`) holds
after the engine ran, the canvas size the engine reported in
`self.vm.namespace['WIDTH']` / `['HEIGHT']`, and `self._showFooter`. -/
structure RunState where
  declaresWIDTH : Bool
  declaresHEIGHT : Bool
  canvasWidth : Int
  canvasHeight : Int
  showFooter : Bool

/-- The resize step of `NodeBoxScript.runScript`: on a first run
(neither WIDTH nor HEIGHT declared) it returns the new window content
size passed to `setContentSize`, adding 22 to the height when the
status footer is shown; otherwise no resize happens. -/
def runScriptResize (s : RunState) : Option (Int × Int) :=
  if !(s.declaresWIDTH || s.declaresHEIGHT) then
    some (s.canvasWidth, s.canvasHeight + (if s.showFooter then 22 else 0))
  else none

/-- Python `s.rsplit(sep, 1)`: splits at the last occurrence of `sep`,
returning the singleton `[s]` when `sep` does not occur. -/
def pyRsplit1 (sep : Char) (s : List Char) : List (List Char) :=
  if sep ∈ s then
    [((s.reverse.dropWhile (fun c => c != sep)).drop 1).reverse,
     (s.reverse.takeWhile (fun c => c != sep)).reverse]
  else [s]

/-- Export kinds distinguished by `NodeBoxScript.export`. -/
inductive Kind where
  | movie
  | image
  deriving DecidableEq

/-- Python exceptions that `NodeBoxScript.export` can raise. -/
inductive PyErr where
  | keyError (k : String)
  | typeError
  | indexError
  deriving DecidableEq

/-- The call `NodeBoxScript.export` makes into the engine, together
with the controller state it leaves behind. -/
structure ExportCall where
  storedAfter : Dict
  metadata : Dict
  kind : Kind
  fname : List Char

/-- `NodeBoxScript.export`: copies `self.opts` with `dict(self.opts)`,
reads the export path, writes the extension after the last dot into the
copy's `'format'` key, classifies the kind as movie exactly for the
extensions `mov` and `gif`, and delegates to `self.vm.export`.  The
stored `self.opts` is left as it was.  A missing export key raises
`KeyError`, a non-string export value raises `TypeError` on `rsplit`,
and a dotless path raises `IndexError` on the `[1]` subscript. -/
def exportOp (stored : Dict) : Except PyErr ExportCall :=
  match dlookup "export" stored with
  | none => .error (.keyError "export")
  | some (.jstr f) =>
      match (pyRsplit1 '.' f.toList)[1]? with
      | none => .error .indexError
      | some fmt =>
          .ok { storedAfter := stored
                metadata := dinsert "format" (.jstr (String.mk fmt)) stored
                kind := if fmt = "mov".toList ∨ fmt = "gif".toList
                        then Kind.movie else Kind.image
                fname := f.toList }
  | some _ => .error .typeError

/-- The stored options dict after `export()` returns (unchanged on
error, since the failed statement only touched the copy). -/
def storedAfterExport (d : Dict) : Dict :=
  match exportOp d with
  | .ok call => call.storedAfter
  | .error _ => d

/-- The merge `_export` performs before re-exporting in windowed mode:
`self.opts.update(opts)` followed by `self.opts['export'] = fname`. -/
def mergeExportOpts (stored overrides : Dict) (fname : String) : Dict :=
  dinsert "export" (.jstr fname) (dupdate stored overrides)

/-- Helper: unfolding `dlookup` on a cons cell. -/
theorem dlookup_cons (k k₀ : String) (v₀ : JVal) (rest : Dict) :
    dlookup k ((k₀, v₀) :: rest) = if k = k₀ then some v₀ else dlookup k rest :=
  rfl

/-- C1 (counterexample): for the valid startup JSON `{}` the export
field is absent, yet the resolved mode is not `windowed`: the startup
block aborts on an uncaught `KeyError` before any mode exists. -/
theorem c1_absent_export_not_windowed :
    resolvedMode (startup (.parsed (.jobj []))) ≠ some Mode.windowed := by
  decide

/-- C1 (amended): for every startup JSON object in which the export
field is present, the resolved mode is `headless` iff the field's value
is truthy/non-empty and `windowed` iff it is falsy/empty; the mode is
fixed by this single startup computation. -/
theorem c1_mode_resolution (fields : Dict) (v : JVal)
    (h : dlookup "export" fields = some v) :
    startup (.parsed (.jobj fields)) =
      .launch (if truthy v then Mode.headless else Mode.windowed) fields := by
  simp [startup, h]

/-- C1 (witness): a startup mapping with a non-empty export path
launches headless. -/
theorem c1_mode_resolution_witness :
    startup (.parsed (.jobj [("export", JVal.jstr "out.png")])) =
      .launch (if truthy (JVal.jstr "out.png") then Mode.headless else Mode.windowed)
        [("export", JVal.jstr "out.png")] :=
  c1_mode_resolution [("export", JVal.jstr "out.png")] (JVal.jstr "out.png") rfl

/-- C2: a malformed startup line, and any valid JSON line whose export
field is absent, both make the process print a diagnostic and exit
with a non-zero status without entering the event loop. -/
theorem c2_malformed_input_aborts (v : JVal) (h : exportFieldAbsent v = true) :
    abortsBeforeEventLoop (startup .malformed) = true ∧
    abortsBeforeEventLoop (startup (.parsed v)) = true := by
  refine ⟨rfl, ?_⟩
  cases v with
  | jobj fields =>
      cases hlook : dlookup "export" fields with
      | none => simp [startup, hlook, abortsBeforeEventLoop]
      | some v₀ =>
          rw [exportFieldAbsent, hlook] at h
          simp at h
  | jnull => rfl
  | jbool b => rfl
  | jnum n => rfl
  | jstr s => rfl
  | jarr elems => rfl

/-- C2 (witness): the empty JSON object lacks the export field and
aborts, as does an unparseable line. -/
theorem c2_malformed_input_witness :
    abortsBeforeEventLoop (startup .malformed) = true ∧
    abortsBeforeEventLoop (startup (.parsed (.jobj []))) = true :=
  c2_malformed_input_aborts (.jobj []) rfl

/-- C5: `cancel()` forwards cancellation to the session iff one exists;
with an active animation timer it stops the script and requests no
termination, without one it requests `done(quit=True)` exactly in
windowed mode, and in headless mode with no timer it requests
nothing beyond the session cancellation. -/
theorem c5_cancel_behavior (s : CancelState) :
    (cancel s).sessionCancelled = s.hasSession ∧
    (s.hasAnimationTimer = true →
      (cancel s).scriptStopped = true ∧ (cancel s).doneQuit = none) ∧
    (s.hasAnimationTimer = false → s.windowed = true →
      (cancel s).scriptStopped = false ∧ (cancel s).doneQuit = some true) ∧
    (s.hasAnimationTimer = false → s.windowed = false →
      (cancel s).scriptStopped = false ∧ (cancel s).doneQuit = none) := by
  refine ⟨rfl, ?_, ?_, ?_⟩
  · intro h; simp [cancel, h]
  · intro h₁ h₂; simp [cancel, h₁, h₂]
  · intro h₁ h₂; simp [cancel, h₁, h₂]

/-- C5 (witness): with a session and an animation timer the script is
stopped and no termination is requested; headless with no timer
requests nothing. -/
theorem c5_cancel_behavior_witness :
    ((cancel ⟨true, true, false⟩).scriptStopped = true ∧
      (cancel ⟨true, true, false⟩).doneQuit = none) ∧
    ((cancel ⟨true, false, false⟩).scriptStopped = false ∧
      (cancel ⟨true, false, false⟩).doneQuit = none) :=
  ⟨(c5_cancel_behavior ⟨true, true, false⟩).2.1 rfl,
   (c5_cancel_behavior ⟨true, false, false⟩).2.2.2 rfl rfl⟩

/-- C6: `done(quit)` terminates iff the mode is headless or `quit` is
true; a failing export status streams its output chunks after a bare
carriage return and terminates exactly in headless mode, while a
successful status streams its output with no termination request. -/
theorem c6_done_termination (mode : Mode) (quit : Bool)
    (output : List (Bool × List Char)) :
    (done mode quit = true ↔ (mode = Mode.headless ∨ quit = true)) ∧
    (exportStatus mode true output).writes = echoWrites output ∧
    (exportStatus mode true output).terminated = false ∧
    (exportStatus mode false output).writes = (Fd.err, ['\r']) :: echoWrites output ∧
    (exportStatus Mode.headless false output).terminated = true ∧
    (exportStatus Mode.windowed false output).terminated = false := by
  refine ⟨?_, rfl, rfl, rfl, rfl, rfl⟩
  cases mode <;> cases quit <;> simp [done]

/-- C8: `runScript` resizes the window content exactly on a first run
(neither WIDTH nor HEIGHT declared in the script's namespace), to the
engine-reported canvas size with the height padded by 22 iff the
status footer is shown; otherwise it leaves the window alone. -/
theorem c8_first_run_resize (s : RunState) :
    (s.declaresWIDTH = false → s.declaresHEIGHT = false →
      runScriptResize s =
        some (s.canvasWidth, s.canvasHeight + (if s.showFooter then 22 else 0))) ∧
    (s.declaresWIDTH = true ∨ s.declaresHEIGHT = true →
      runScriptResize s = none) := by
  constructor
  · intro h₁ h₂; simp [runScriptResize, h₁, h₂]
  · intro h; rcases h with h | h <;> simp [runScriptResize, h]

/-- C8 (witness): a first run with the footer shown resizes to the
canvas size plus 22 height units. -/
theorem c8_first_run_resize_witness :
    runScriptResize ⟨false, false, 512, 384, true⟩ =
      some (512, 384 + (if true then 22 else 0)) :=
  (c8_first_run_resize ⟨false, false, 512, 384, true⟩).1 rfl rfl

/-- C10: `exportProgress(0, 0, False)` raises `ZeroDivisionError`
because the bar fraction is divided out before the `written == total`
finishing case is examined, and only `cancelled=True` bypasses the
division. -/
theorem c10_progress_div_by_zero :
    exportProgress 0 0 false = .error ProgressErr.divByZero ∧
    exportProgress 0 0 true = .ok (ERASER ++ "Cancelling export…".toList) :=
  ⟨rfl, rfl⟩

/-- Helper: joining `m` copies of a one-character piece yields
`m` copies of the character. -/
theorem flatten_replicate_singleton (m : Nat) (c : Char) :
    (List.replicate m [c]).flatten = List.replicate m c := by
  induction m with
  | zero => rfl
  | succ m ih => simp [List.replicate_succ, ih]

/-- Helper: the joined bar pieces are `pct` hashes then `width - pct`
dots. -/
theorem progressDots_eq (pct width : Nat) :
    progressDots pct width =
      List.replicate pct '#' ++ List.replicate (width - pct) '.' := by
  simp [progressDots, flatten_replicate_singleton]

/-- C3: a progress update with `0 ≤ k ≤ n`, `n > 0` renders the
cancelling message when cancelled, the finishing message when `k = n`,
and otherwise the 80-column eraser followed by the frame-count text and
a 20-cell bar of exactly `⌊20k/n⌋` hash cells then `20 - ⌊20k/n⌋` dot
cells. -/
theorem c3_progress_bar (k n : Nat) (hn : 0 < n) (hk : k ≤ n) :
    exportProgress k n true = .ok (ERASER ++ "Cancelling export…".toList) ∧
    (k = n → exportProgress k n false = .ok (ERASER ++ "Finishing export…".toList)) ∧
    (k < n → exportProgress k n false =
      .ok (ERASER ++ ('\r' :: ("Generating ".toList ++ (toString n).toList ++
        " frames [".toList ++
        (List.replicate (20 * k / n) '#' ++ List.replicate (20 - 20 * k / n) '.') ++
        "]".toList)))) := by
  refine ⟨rfl, ?_, ?_⟩
  · intro hkn
    subst hkn
    simp [exportProgress, hn.ne']
  · intro hlt
    simp [exportProgress, hn.ne', hlt.ne', progressDots_eq]

/-- C3 (witness): at 5 of 20 frames the bar has 5 hash cells and 15 dot
cells. -/
theorem c3_progress_bar_witness :
    exportProgress 5 20 false =
      .ok (ERASER ++ ('\r' :: ("Generating ".toList ++ (toString 20).toList ++
        " frames [".toList ++
        (List.replicate (20 * 5 / 20) '#' ++ List.replicate (20 - 20 * 5 / 20) '.') ++
        "]".toList))) :=
  (c3_progress_bar 5 20 (by decide) (by decide)).2.2 (by decide)

/-- Helper: the Python substring test agrees with list-infix. -/
theorem containsSub_eq_true_iff (pat : List Char) :
    ∀ s : List Char, containsSub pat s = true ↔ pat <:+: s := by
  intro s
  induction s with
  | nil => simp [containsSub, List.isEmpty_iff, List.infix_nil]
  | cons c rest ih =>
      simp [containsSub, ih, List.infix_cons_iff, List.isPrefixOf_iff_prefix]

/-- Helper: a non-empty pattern of non-whitespace characters that occurs
in a list still occurs after leading whitespace is dropped. -/
theorem infix_dropWhile_of_infix (pat : List Char)
    (hws : ∀ c ∈ pat, pyWS c = false) (hne : pat ≠ []) :
    ∀ s : List Char, pat <:+: s → pat <:+: s.dropWhile pyWS := by
  intro s
  induction s with
  | nil => intro h; simpa using h
  | cons a t ih =>
      intro h
      rw [List.dropWhile_cons]
      by_cases ha : pyWS a = true
      · rw [if_pos ha]
        rcases List.infix_cons_iff.mp h with hpre | hinf
        · obtain ⟨p₀, pr, rfl⟩ := List.exists_cons_of_ne_nil hne
          obtain ⟨tl, htl⟩ := hpre
          rw [List.cons_append] at htl
          injection htl with h₁ h₂
          have hfalse : pyWS a = false := h₁ ▸ hws p₀ (List.mem_cons_self _ _)
          rw [hfalse] at ha
          simp at ha
        · exact ih hinf
      · rw [if_neg ha]; exact h

/-- Helper: stripping whitespace from both ends does not change whether
a non-empty non-whitespace pattern occurs as a substring. -/
theorem containsSub_pyStrip (pat s : List Char) (hne : pat ≠ [])
    (hws : ∀ c ∈ pat, pyWS c = false) :
    containsSub pat (pyStrip s) = containsSub pat s := by
  rw [Bool.eq_iff_iff, containsSub_eq_true_iff, containsSub_eq_true_iff]
  unfold pyStrip
  constructor
  · intro h
    refine h.trans ?_
    have hsuf : (s.dropWhile pyWS).reverse.dropWhile pyWS <:+ (s.dropWhile pyWS).reverse :=
      List.dropWhile_suffix pyWS
    have hpre := List.reverse_prefix.mpr hsuf
    rw [List.reverse_reverse] at hpre
    exact hpre.isInfix.trans (List.dropWhile_suffix pyWS).isInfix
  · intro h
    have h₁ : pat <:+: s.dropWhile pyWS := infix_dropWhile_of_infix pat hws hne s h
    have h₂ : pat.reverse <:+: (s.dropWhile pyWS).reverse :=
      List.reverse_infix.mpr h₁
    have hws' : ∀ c ∈ pat.reverse, pyWS c = false := by
      intro c hc; exact hws c (List.mem_reverse.mp hc)
    have hne' : pat.reverse ≠ [] := by simpa using hne
    have h₃ : pat.reverse <:+: (s.dropWhile pyWS).reverse.dropWhile pyWS :=
      infix_dropWhile_of_infix pat.reverse hws' hne' _ h₂
    have h₄ := List.reverse_infix.mpr h₃
    rwa [List.reverse_reverse] at h₄

/-- C7: on each wake-up with a line available on stdin, the watcher
calls `cancel()` exactly once when the line contains the substring
CANCEL and zero times otherwise, and it re-arms itself in every case,
including a wake-up with nothing to read. -/
theorem c7_interrupt_watcher (line : List Char) :
    catchInterrupts true line =
      { cancelCalls := if containsSub CANCEL line then 1 else 0, rearmed := true } ∧
    catchInterrupts false line = { cancelCalls := 0, rearmed := true } := by
  refine ⟨?_, rfl⟩
  have h := containsSub_pyStrip CANCEL line (by decide) (by decide)
  simp [catchInterrupts, h]

/-- Helper: dropping the non-`sep` head of a list that contains `sep`
reaches the first `sep`. -/
theorem dropWhile_ne_eq_cons (sep : Char) :
    ∀ r : List Char, sep ∈ r →
      ∃ u, r.dropWhile (fun c => c != sep) = sep :: u := by
  intro r
  induction r with
  | nil => intro h; cases h
  | cons a t ih =>
      intro h
      rw [List.dropWhile_cons]
      by_cases ha : a = sep
      · subst ha
        exact ⟨t, by simp⟩
      · have hat : sep ∈ t := by
          rcases List.mem_cons.mp h with h' | h'
          · exact absurd h'.symm ha
          · exact h'
        have hcond : (a != sep) = true := by simp [ha]
        rw [if_pos hcond]
        exact ih hat

/-- Helper: on a list containing the separator, `pyRsplit1` returns the
part before the last separator and the part after it, the latter free
of the separator. -/
theorem pyRsplit1_spec (sep : Char) (s : List Char) (h : sep ∈ s) :
    ∃ pre ext, pyRsplit1 sep s = [pre, ext] ∧
      s = pre ++ sep :: ext ∧ sep ∉ ext := by
  have hrev : sep ∈ s.reverse := List.mem_reverse.mpr h
  obtain ⟨u, hu⟩ := dropWhile_ne_eq_cons sep s.reverse hrev
  refine ⟨u.reverse, (s.reverse.takeWhile (fun c => c != sep)).reverse, ?_, ?_, ?_⟩
  · unfold pyRsplit1
    rw [if_pos h, hu]
    simp
  · have hsplit :
        s.reverse.takeWhile (fun c => c != sep) ++
          s.reverse.dropWhile (fun c => c != sep) = s.reverse :=
      List.takeWhile_append_dropWhile _ _
    rw [hu] at hsplit
    have hrw := congrArg List.reverse hsplit
    rw [List.reverse_append, List.reverse_reverse, List.reverse_cons,
      List.append_assoc] at hrw
    simpa using hrw.symm
  · intro hmem
    have hmem' : sep ∈ s.reverse.takeWhile (fun c => c != sep) :=
      List.mem_reverse.mp hmem
    have := List.mem_takeWhile_imp hmem'
    simp at this

/-- Helper: splitting at the last occurrence of a character is unique:
two decompositions whose tails avoid the character coincide. -/
theorem last_split_unique (a : Char) :
    ∀ (pre pre' ext ext' : List Char), a ∉ ext → a ∉ ext' →
      pre ++ a :: ext = pre' ++ a :: ext' → pre = pre' ∧ ext = ext' := by
  intro pre
  induction pre with
  | nil =>
      intro pre' ext ext' hext hext' heq
      cases pre' with
      | nil =>
          rw [List.nil_append, List.nil_append] at heq
          injection heq with h₁ h₂
          exact ⟨rfl, h₂⟩
      | cons b pr' =>
          rw [List.nil_append, List.cons_append] at heq
          injection heq with h₁ h₂
          exfalso
          exact hext (h₂ ▸ List.mem_append_right pr' (h₁ ▸ List.mem_cons_self a ext'))
  | cons b pr ih =>
      intro pre' ext ext' hext hext' heq
      cases pre' with
      | nil =>
          rw [List.nil_append, List.cons_append] at heq
          injection heq with h₁ h₂
          exfalso
          exact hext' (h₂.symm ▸ List.mem_append_right pr (h₁.symm ▸ List.mem_cons_self a ext))
      | cons b' pr' =>
          rw [List.cons_append, List.cons_append] at heq
          injection heq with h₁ h₂
          obtain ⟨hp, he⟩ := ih pr' ext ext' hext hext' h₂
          exact ⟨by rw [h₁, hp], he⟩

/-- C4: when the export path decomposes as `pre ++ '.' :: ext` with no
dot in `ext` (i.e. `ext` is the substring after the last dot),
`export()` succeeds, writes `ext` into the `'format'` key of the
metadata copy, passes the full path on, and classifies the kind as
movie exactly when `ext` is `mov` or `gif`, else image. -/
theorem c4_export_format_kind (stored : Dict) (f : String) (pre ext : List Char)
    (hexp : dlookup "export" stored = some (JVal.jstr f))
    (hsplit : f.toList = pre ++ '.' :: ext) (hnot : '.' ∉ ext) :
    exportOp stored =
      .ok { storedAfter := stored
            metadata := dinsert "format" (JVal.jstr (String.mk ext)) stored
            kind := if ext = "mov".toList ∨ ext = "gif".toList
                    then Kind.movie else Kind.image
            fname := f.toList } ∧
    ((if ext = "mov".toList ∨ ext = "gif".toList
        then Kind.movie else Kind.image) = Kind.movie ↔
      (ext = "mov".toList ∨ ext = "gif".toList)) := by
  have hdot : '.' ∈ f.toList := by
    rw [hsplit]
    exact List.mem_append_right pre (List.mem_cons_self _ _)
  obtain ⟨pre', ext', hsp, heq', hnot'⟩ := pyRsplit1_spec '.' f.toList hdot
  obtain ⟨hp, he⟩ :=
    last_split_unique '.' pre pre' ext ext' hnot hnot' (hsplit.symm.trans heq')
  subst hp
  subst he
  constructor
  · have hsp' : pyRsplit1 '.' f.data = [pre, ext] := hsp
    simp [exportOp, hexp, hsp']
  · by_cases hk : ext = "mov".toList ∨ ext = "gif".toList
    · rw [if_pos hk]
      exact ⟨fun _ => hk, fun _ => rfl⟩
    · rw [if_neg hk]
      exact ⟨fun h => absurd h (fun hh => Kind.noConfusion hh), fun h => absurd h hk⟩

/-- C4 (witness): the path `out.gif` gets format `gif` and kind movie. -/
theorem c4_export_format_kind_witness :
    exportOp [("export", JVal.jstr "out.gif")] =
      .ok { storedAfter := [("export", JVal.jstr "out.gif")]
            metadata := dinsert "format" (JVal.jstr (String.mk "gif".toList))
              [("export", JVal.jstr "out.gif")]
            kind := if "gif".toList = "mov".toList ∨ "gif".toList = "gif".toList
                    then Kind.movie else Kind.image
            fname := "out.gif".toList } ∧
    ((if "gif".toList = "mov".toList ∨ "gif".toList = "gif".toList
        then Kind.movie else Kind.image) = Kind.movie ↔
      ("gif".toList = "mov".toList ∨ "gif".toList = "gif".toList)) :=
  c4_export_format_kind [("export", JVal.jstr "out.gif")] "out.gif"
    "out".toList "gif".toList rfl (by decide) (by decide)

/-- Helper: lookup after a single dict assignment. -/
theorem dlookup_dinsert (k k₁ : String) (v : JVal) :
    ∀ d : Dict, dlookup k (dinsert k₁ v d) =
      if k = k₁ then some v else dlookup k d := by
  intro d
  induction d with
  | nil => rfl
  | cons kv rest ih =>
      obtain ⟨k₀, v₀⟩ := kv
      by_cases h : k₁ = k₀
      · subst h
        by_cases hk : k = k₁ <;> simp [dinsert, dlookup, hk]
      · simp only [dinsert, if_neg h, dlookup, ih]
        by_cases hk₀ : k = k₀
        · have hk₁ : k ≠ k₁ := fun hh => h (hh.symm.trans hk₀)
          have hk₂ : k₀ ≠ k₁ := fun hh => h hh.symm
          simp [hk₀, hk₁, hk₂]
        · simp [hk₀]

/-- Helper: lookup misses keys not present in the dict. -/
theorem dlookup_eq_none_of_not_mem (k : String) :
    ∀ o : Dict, k ∉ o.map Prod.fst → dlookup k o = none := by
  intro o
  induction o with
  | nil => intro _; rfl
  | cons kv rest ih =>
      obtain ⟨k₀, v₀⟩ := kv
      intro h
      rw [List.map_cons] at h
      have h₁ : k ≠ k₀ := fun hh => h (hh ▸ List.mem_cons_self _ _)
      have h₂ : k ∉ rest.map Prod.fst := fun hm => h (List.mem_cons_of_mem _ hm)
      simp [dlookup, h₁, ih h₂]

/-- Helper: after `d.update(o)` with distinct keys in `o`, lookups
prefer the override values. -/
theorem dlookup_dupdate (k : String) :
    ∀ (o d : Dict), (o.map Prod.fst).Nodup →
      dlookup k (dupdate d o) = (dlookup k o <|> dlookup k d) := by
  intro o
  induction o with
  | nil => intro d _; simp [dupdate, dlookup]
  | cons kv rest ih =>
      obtain ⟨k₀, v₀⟩ := kv
      intro d hnd
      rw [List.map_cons, List.nodup_cons] at hnd
      obtain ⟨hk₀, hrest⟩ := hnd
      rw [dupdate, ih (dinsert k₀ v₀ d) hrest, dlookup_dinsert]
      by_cases hk : k = k₀
      · subst hk
        have hnone : dlookup k rest = none := dlookup_eq_none_of_not_mem k rest hk₀
        simp [dlookup, hnone]
      · simp [dlookup, hk]

/-- Helper: a successful `export()` leaves the stored options behind it
exactly as they were. -/
theorem exportOp_storedAfter (d : Dict) (call : ExportCall)
    (h : exportOp d = .ok call) : call.storedAfter = d := by
  unfold exportOp at h
  split at h
  · exact absurd h (by simp)
  · split at h
    · exact absurd h (by simp)
    · injection h with h'
      rw [← h']
  · exact absurd h (by simp)

/-- Helper: `export()` never mutates the stored options dict. -/
theorem storedAfterExport_eq (d : Dict) : storedAfterExport d = d := by
  unfold storedAfterExport
  cases h : exportOp d with
  | ok call => exact exportOp_storedAfter d call h
  | error e => rfl

/-- C9: the merge performed before a windowed re-export lets override
values win over stored ones and then pins the export path to the given
filename, while `export()` itself writes the format key only into a
copy and leaves the stored options unchanged. -/
theorem c9_export_merge (stored overrides : Dict) (fname k : String)
    (hnd : (overrides.map Prod.fst).Nodup) :
    dlookup k (mergeExportOpts stored overrides fname) =
      (if k = "export" then some (JVal.jstr fname)
       else (dlookup k overrides <|> dlookup k stored)) ∧
    storedAfterExport stored = stored := by
  refine ⟨?_, storedAfterExport_eq stored⟩
  unfold mergeExportOpts
  rw [dlookup_dinsert]
  by_cases hk : k = "export"
  · simp [hk]
  · rw [if_neg hk, if_neg hk]
    exact dlookup_dupdate k overrides stored hnd

/-- C9 (witness): an fps override and a new export path land in the
merged options, and the stored options survive an export untouched. -/
theorem c9_export_merge_witness :
    (dlookup "export" (mergeExportOpts
        [("file", JVal.jstr "a.py"), ("export", JVal.jstr "old.png")]
        [("fps", JVal.jnum 30)] "new.mov") =
      (if "export" = "export" then some (JVal.jstr "new.mov")
       else (dlookup "export" [("fps", JVal.jnum 30)] <|>
         dlookup "export" [("file", JVal.jstr "a.py"), ("export", JVal.jstr "old.png")]))) ∧
    storedAfterExport [("file", JVal.jstr "a.py"), ("export", JVal.jstr "old.png")] =
      [("file", JVal.jstr "a.py"), ("export", JVal.jstr "old.png")] :=
  c9_export_merge [("file", JVal.jstr "a.py"), ("export", JVal.jstr "old.png")]
    [("fps", JVal.jnum 30)] "new.mov" "export" (by decide)
